import Mathlib

/-
Shallow embedding of the tool-augmented conversation orchestrator of
src/src/llm.ts (class LLM): the data model of Anthropic messages, the
transcript sanitizer (validateMessage / cleanConversationHistory), the
prompt builder (buildSystemPrompt) and the bounded negotiation loop
(processComplexQuery).  External collaborators (the model service and the
MCP tool host) are modelled as oracles; a failed call is an `Except.error`
value, mirroring a thrown exception that the TS code catches.  Logging-only
code (syncLoggingMode, this.log) touches no conversation state and is
omitted.
-/

namespace MCP

/-- One content block of an Anthropic message.  Tool-use input is kept as an
opaque string, as its structure is never inspected by the orchestrator. -/
inductive ContentBlock where
  | text (text : String)
  | toolUse (id : String) (name : String) (input : String)
  | toolResult (toolUseId : String) (content : String)
  | other
deriving DecidableEq, Repr

/-- Message content is either a plain string or an array of content blocks,
as in Anthropic.Messages.MessageParam. -/
inductive MessageContent where
  | str (s : String)
  | blocks (bs : List ContentBlock)
deriving DecidableEq, Repr

/-- A conversation message: role ("user" or "assistant") plus content. -/
structure Message where
  role : String
  content : MessageContent
deriving DecidableEq, Repr

/-- JavaScript `s.trim().length > 0`: trimming removes whitespace from both
ends, so the trimmed length is positive exactly when the string contains a
non-whitespace character. -/
def hasNonWhitespace (s : String) : Bool :=
  s.data.any (fun c => !c.isWhitespace)

/-- Validity of a single content block, from LLM.validateMessage: a text
block needs non-whitespace text, a tool_result needs non-whitespace string
content, a tool_use needs a non-whitespace name; other kinds pass. -/
def validBlock : ContentBlock → Bool
  | .text t => hasNonWhitespace t
  | .toolResult _ c => hasNonWhitespace c
  | .toolUse _ name _ => hasNonWhitespace name
  | .other => true

/-- LLM.validateMessage: a string message must have non-whitespace content;
an array message must be non-empty and contain at least one valid block. -/
def validateMessage (m : Message) : Bool :=
  match m.content with
  | .str s => hasNonWhitespace s
  | .blocks bs => bs.length > 0 && bs.any validBlock

/-- Whether a content block is a tool_use request. -/
def ContentBlock.isToolUse : ContentBlock → Bool
  | .toolUse _ _ _ => true
  | _ => false

/-- Whether a message carries at least one tool_use block (array content
with some tool_use); string content never does. -/
def messageHasToolUse (m : Message) : Bool :=
  match m.content with
  | .str _ => false
  | .blocks bs => bs.any ContentBlock.isToolUse

/-- Second pass of LLM.cleanConversationHistory: drop an assistant message
that carries no tool_use when the previously kept message was also an
assistant message (the TS loop tracks lastRole over pushed messages). -/
def collapseAssistantRuns (lastRole : Option String) : List Message → List Message
  | [] => []
  | m :: rest =>
    if lastRole = some m.role ∧ m.role = "assistant" ∧ messageHasToolUse m = false then
      collapseAssistantRuns lastRole rest
    else
      m :: collapseAssistantRuns (some m.role) rest

/-- LLM.cleanConversationHistory: filter out invalid messages, then collapse
runs of consecutive assistant messages without tool calls. -/
def cleanConversationHistory (h : List Message) : List Message :=
  collapseAssistantRuns none (h.filter validateMessage)

/-- One content item of an MCP callTool result: a kind tag and text. -/
structure MCPContent where
  type : String
  text : String
deriving DecidableEq, Repr

/-- External collaborators of the orchestrator.  `model` receives the
sanitized transcript and returns a response content array or fails (a
thrown exception in TS); `callTool` returns the raw MCP result, where
`some cs` is a result with a content array, `none` is a falsy result or a
result without content, and `Except.error` is a thrown tool failure. -/
structure Oracles where
  model : List Message → Except Unit (List ContentBlock)
  callTool : String → String → Except String (Option (List MCPContent))

/-- Normalization of an MCP result into result text, from the body of
processComplexQuery: keep the text items with non-whitespace text, join
with a newline, default to "No result", and substitute a placeholder if the
outcome is whitespace-only. -/
def toolResultTextOf (r : Option (List MCPContent)) : String :=
  let base :=
    match r with
    | none => "No result"
    | some cs =>
      let resultTexts :=
        ((cs.filter (fun c => c.type = "text")).map MCPContent.text).filter hasNonWhitespace
      if resultTexts.length > 0 then String.intercalate "\n" resultTexts else "No result"
  if hasNonWhitespace base then base else "Tool executed successfully but returned no content"

/-- One tool dispatch inside a round of processComplexQuery: a successful
call is normalized by `toolResultTextOf`; a thrown tool failure is caught
and encoded as error text.  Always yields exactly one tool_result block. -/
def processTool (o : Oracles) (id name input : String) : ContentBlock :=
  match o.callTool name input with
  | .ok r => .toolResult id (toolResultTextOf r)
  | .error e => .toolResult id ("Error executing tool: " ++ e)

/-- The per-round scan over response.content in processComplexQuery,
threading finalResponse: a text block overwrites finalResponse (the TS code
assigns, it does not append), a tool_use block sets hasToolCalls and pushes
one tool result, other blocks are ignored.  Returns
(finalResponse, hasToolCalls, toolResults). -/
def processRoundContent (o : Oracles) : List ContentBlock → String → String × Bool × List ContentBlock
  | [], finalResponse => (finalResponse, false, [])
  | .text t :: rest, _ => processRoundContent o rest t
  | .toolUse id name input :: rest, finalResponse =>
    let r := processTool o id name input
    let rec' := processRoundContent o rest finalResponse
    (rec'.1, true, r :: rec'.2.2)
  | .toolResult _ _ :: rest, finalResponse => processRoundContent o rest finalResponse
  | .other :: rest, finalResponse => processRoundContent o rest finalResponse

/-- Outcome of the negotiation loop: converged (last response had no tool
calls), exhausted (round limit reached), or a model-call failure (a thrown
exception caught by the surrounding try block). -/
inductive LoopOutcome where
  | converged (answer : String)
  | exhausted (answer : String)
  | modelError
deriving DecidableEq, Repr

/-- The while loop of processComplexQuery, with fuel = maxToolRounds minus
currentRound.  Each round calls the model on the sanitized history, scans
the response content, appends the assistant turn, and, when tool calls were
present, appends one user turn holding all tool results and continues. -/
def complexLoop (o : Oracles) (finalResponse : String) (h : List Message) : Nat → LoopOutcome × List Message
  | 0 => (.exhausted finalResponse, h)
  | fuel + 1 =>
    match o.model (cleanConversationHistory h) with
    | .error _ => (.modelError, h)
    | .ok content =>
      let res := processRoundContent o content finalResponse
      let h' := h ++ [⟨"assistant", .blocks content⟩]
      if res.2.1 then
        complexLoop o res.1 (h' ++ [⟨"user", .blocks res.2.2⟩]) fuel
      else
        (.converged res.1, h')

/-- The fixed apology returned by the catch block of processComplexQuery. -/
def complexErrorMessage : String :=
  "I\x27m sorry, I encountered an error processing your complex request."

/-- LLM.processComplexQuery: append the user turn, run the bounded loop,
and map a model-call failure to the fixed apology string.  Returns the
answer and the final conversationHistory. -/
def processComplexQuery (o : Oracles) (userMessage : String) (maxToolRounds : Nat)
    (h : List Message) : String × List Message :=
  let h1 := h ++ [⟨"user", .str userMessage⟩]
  match complexLoop o "" h1 maxToolRounds with
  | (.converged a, h') => (a, h')
  | (.exhausted a, h') => (a, h')
  | (.modelError, h') => (complexErrorMessage, h')

/-- One property of a tool input schema: a parameter name together with the
optional description and type fields of its schema value; `none` models an
absent field. -/
structure ToolParam where
  name : String
  description : Option String
  type : Option String
deriving DecidableEq, Repr

/-- A tool of the capability directory, as consumed by buildSystemPrompt:
name, description, and the ordered properties of its input schema (`none`
models an absent or falsy inputSchema.properties). -/
structure Tool where
  name : String
  description : String
  properties : Option (List ToolParam)
deriving DecidableEq, Repr

/-- JavaScript `a || b` on an optional string: an absent or empty string
falls through to the default. -/
def jsOrElse (v : Option String) (dflt : String) : String :=
  match v with
  | some s => if s.isEmpty then dflt else s
  | none => dflt

/-- Rendering of one schema property inside buildSystemPrompt:
`key: value.description || value.type || "any"`. -/
def renderParam (p : ToolParam) : String :=
  p.name ++ ": " ++ jsOrElse p.description (jsOrElse p.type "any")

/-- Rendering of the parameter list of a tool: the comma-joined properties
in iteration order, or "none" when the schema has no properties object. -/
def renderParams (props : Option (List ToolParam)) : String :=
  match props with
  | some ps => String.intercalate ", " (ps.map renderParam)
  | none => "none"

/-- The per-tool block of buildSystemPrompt. -/
def toolDescription (t : Tool) : String :=
  "<tool name=\"" ++ t.name ++ "\">\n<description>" ++ t.description ++
    "</description>\n<parameters>" ++ renderParams t.properties ++ "</parameters>\n</tool>"

/-- Fixed text of the system prompt before the tool list. -/
def promptHeader : String :=
  "You are an AI assistant with access to MCP (Model Context Protocol) tools. When you need to use a tool, you should call it using the tool_use format.\n\nAvailable tools:\n"

/-- Fixed text of the system prompt after the tool list. -/
def promptFooter : String :=
  "\n\nIMPORTANT LOGGING INSTRUCTIONS:\n- Use the get_logging_mode tool to check the current logging setting\n- If logging mode is \"verbose\": Show detailed steps, tool executions, and reasoning process\n- If logging mode is \"quiet\": Provide only the final answer without showing intermediate steps\n- Users can change the logging mode with set_logging_mode tool\n\nUse tools when appropriate to answer user questions. You can call multiple tools in sequence if needed."

/-- LLM.buildSystemPrompt: map each available tool to its block, join with
newlines, and splice into the fixed template. -/
def buildSystemPrompt (availableTools : List Tool) : String :=
  let toolDescriptions := String.intercalate "\n" (availableTools.map toolDescription)
  promptHeader ++ toolDescriptions ++ promptFooter

/-- The session-scoped mutable fields of the LLM class that the claims
concern: the capability directory and the raw transcript. -/
structure LLMState where
  availableTools : List Tool
  conversationHistory : List Message
deriving DecidableEq, Repr

/-- LLM.getHistory: a copy of the raw conversation history. -/
def getHistory (s : LLMState) : List Message :=
  s.conversationHistory

/-- LLM.getHistory as a state operation: the method reads the history and
writes no field. -/
def getHistoryOp (s : LLMState) : List Message × LLMState :=
  (getHistory s, s)

/-- LLM.buildSystemPrompt as a state operation: the method reads
availableTools and writes no field. -/
def buildSystemPromptOp (s : LLMState) : String × LLMState :=
  (buildSystemPrompt s.availableTools, s)

/-- LLM.cleanConversationHistory as a state operation: the method filters a
copy of the history (Array.filter allocates) and writes no field. -/
def cleanConversationHistoryOp (s : LLMState) : List Message × LLMState :=
  (cleanConversationHistory s.conversationHistory, s)

/-- LLM.processComplexQuery as a state operation on the session state. -/
def processComplexQueryOp (o : Oracles) (userMessage : String) (maxToolRounds : Nat)
    (s : LLMState) : String × LLMState :=
  let r := processComplexQuery o userMessage maxToolRounds s.conversationHistory
  (r.1, ⟨s.availableTools, r.2⟩)

/-- The text segments of a content array under the last-one-wins rule of
processComplexQuery, with a default for a response without text. -/
def lastTextOr (d : String) : List ContentBlock → String
  | [] => d
  | .text t :: rest => lastTextOr t rest
  | .toolUse _ _ _ :: rest => lastTextOr d rest
  | .toolResult _ _ :: rest => lastTextOr d rest
  | .other :: rest => lastTextOr d rest

/-- The tool_use requests of a content array, in request order. -/
def toolUsesOf : List ContentBlock → List (String × String × String)
  | [] => []
  | .toolUse id name input :: rest => (id, name, input) :: toolUsesOf rest
  | .text _ :: rest => toolUsesOf rest
  | .toolResult _ _ :: rest => toolUsesOf rest
  | .other :: rest => toolUsesOf rest

/-- Whether a content block is a tool_result. -/
def ContentBlock.isToolResult : ContentBlock → Bool
  | .toolResult _ _ => true
  | _ => false

/-- A tool-result turn as produced by the negotiation loop: a user-role
message whose content is a non-empty array of tool_result blocks. -/
def isToolResultTurn (m : Message) : Bool :=
  m.role == "user" &&
    (match m.content with
     | .blocks bs => !bs.isEmpty && bs.all ContentBlock.isToolResult
     | .str _ => false)

/-- The turn shape the loop appends after the user turn of a converged run:
assistant turn / tool-result turn pairs, ending in an assistant turn. -/
def altRoundsShape : List Message → Bool
  | [] => false
  | [m] => m.role == "assistant"
  | a :: t :: rest => a.role == "assistant" && isToolResultTurn t && altRoundsShape rest

/-- A model that answers every prompt with two text segments and no tool
call, over an unreachable tool host. -/
def twoTextOracle : Oracles where
  model := fun _ => .ok [.text "Hello ", .text "world"]
  callTool := fun _ _ => .error "no tool host"

/-- A model that answers every prompt with a single tool call and no text,
over a tool host that returns the text "ok". -/
def toolOnlyOracle : Oracles where
  model := fun _ => .ok [.toolUse "1" "t" "in"]
  callTool := fun _ _ => .ok (some [⟨"text", "ok"⟩])

/-- A model service whose every call fails, over a failing tool host. -/
def errOracle : Oracles where
  model := fun _ => .error ()
  callTool := fun _ _ => .error "down"

/-- A model that answers every prompt with plain text and no tool call. -/
def textOracle : Oracles where
  model := fun _ => .ok [.text "Done."]
  callTool := fun _ _ => .error "no tool host"

/-- An assistant message holding one text block. -/
def asstText (t : String) : Message :=
  ⟨"assistant", .blocks [.text t]⟩

/-- The user turn appended by processComplexQuery for the given input. -/
def userTurn (u : String) : Message :=
  ⟨"user", .str u⟩

/-- The string processComplexQuery returns for each loop outcome: converged
and exhausted answers pass through unchanged; a model failure is replaced
by the fixed apology of the catch block. -/
def outcomeAnswer : LoopOutcome → String
  | .converged a => a
  | .exhausted a => a
  | .modelError => complexErrorMessage

/-- The first component of the round scan is the last text segment of the
response (the TS loop assigns finalResponse on each text block). -/
theorem processRoundContent_fst (o : Oracles) :
    ∀ (blocks : List ContentBlock) (d : String),
      (processRoundContent o blocks d).1 = lastTextOr d blocks := by
  intro blocks
  induction blocks with
  | nil => intro d; rfl
  | cons b rest ih =>
    intro d
    cases b <;> simp [processRoundContent, lastTextOr, ih]

/-- The hasToolCalls flag of the round scan is exactly "some block of the
response is a tool_use". -/
theorem processRoundContent_hasTool (o : Oracles) :
    ∀ (blocks : List ContentBlock) (d : String),
      (processRoundContent o blocks d).2.1 = blocks.any ContentBlock.isToolUse := by
  intro blocks
  induction blocks with
  | nil => intro d; rfl
  | cons b rest ih =>
    intro d
    cases b <;> simp [processRoundContent, ContentBlock.isToolUse, ih]

/-- The tool results of the round scan are exactly one dispatch per
tool_use request of the response, in request order. -/
theorem processRoundContent_results (o : Oracles) :
    ∀ (blocks : List ContentBlock) (d : String),
      (processRoundContent o blocks d).2.2 =
        (toolUsesOf blocks).map (fun u => processTool o u.1 u.2.1 u.2.2) := by
  intro blocks
  induction blocks with
  | nil => intro d; rfl
  | cons b rest ih =>
    intro d
    cases b <;> simp [processRoundContent, toolUsesOf, ih]

/-- Every dispatch yields a tool_result block carrying the request id. -/
theorem processTool_eq_toolResult (o : Oracles) (id name input : String) :
    ∃ txt, processTool o id name input = .toolResult id txt := by
  unfold processTool
  cases o.callTool name input with
  | ok r => exact ⟨toolResultTextOf r, rfl⟩
  | error e => exact ⟨"Error executing tool: " ++ e, rfl⟩

/-- A response has a tool_use block exactly when its request list is
non-empty. -/
theorem toolUsesOf_ne_nil :
    ∀ blocks : List ContentBlock,
      blocks.any ContentBlock.isToolUse = true → toolUsesOf blocks ≠ [] := by
  intro blocks
  induction blocks with
  | nil => simp
  | cons b rest ih =>
    intro hany
    rw [List.any_cons, Bool.or_eq_true] at hany
    cases b with
    | toolUse id name input => simp [toolUsesOf]
    | text t =>
      rcases hany with h1 | h2
      · simp [ContentBlock.isToolUse] at h1
      · simpa [toolUsesOf] using ih h2
    | toolResult tid c =>
      rcases hany with h1 | h2
      · simp [ContentBlock.isToolUse] at h1
      · simpa [toolUsesOf] using ih h2
    | other =>
      rcases hany with h1 | h2
      · simp [ContentBlock.isToolUse] at h1
      · simpa [toolUsesOf] using ih h2

/-- The collapse pass returns a subsequence of its input. -/
theorem collapseAssistantRuns_sublist :
    ∀ (l : List Message) (lr : Option String), (collapseAssistantRuns lr l).Sublist l := by
  intro l
  induction l with
  | nil => intro lr; simp [collapseAssistantRuns]
  | cons m rest ih =>
    intro lr
    by_cases hc : lr = some m.role ∧ m.role = "assistant" ∧ messageHasToolUse m = false
    · rw [collapseAssistantRuns, if_pos hc]
      exact (ih lr).trans (List.sublist_cons_self m rest)
    · rw [collapseAssistantRuns, if_neg hc]
      exact (ih (some m.role)).cons₂ m

/-- The sanitized snapshot is a subsequence of the raw transcript. -/
theorem cleanConversationHistory_sublist (h : List Message) :
    (cleanConversationHistory h).Sublist h :=
  (collapseAssistantRuns_sublist (h.filter validateMessage) none).trans
    (List.filter_sublist h)

/-- Every message of the sanitized snapshot passes validateMessage. -/
theorem mem_clean_valid {h : List Message} {m : Message}
    (hm : m ∈ cleanConversationHistory h) : validateMessage m = true := by
  have hmem : m ∈ h.filter validateMessage :=
    (collapseAssistantRuns_sublist (h.filter validateMessage) none).subset hm
  exact (List.mem_filter.mp hmem).2

/-- A string with a non-whitespace character is not the empty string. -/
theorem ne_empty_of_hasNonWhitespace {s : String}
    (hs : hasNonWhitespace s = true) : s ≠ "" := by
  intro hemp
  rw [hemp] at hs
  simp [hasNonWhitespace] at hs

/-- The final guard of the result-text normalization never yields the empty
string: either the text has a non-whitespace character or the fixed
placeholder is substituted. -/
theorem guarded_text_ne_empty (base : String) :
    (if hasNonWhitespace base then base
     else "Tool executed successfully but returned no content") ≠ "" := by
  by_cases hw : hasNonWhitespace base = true
  · rw [if_pos hw]
    exact ne_empty_of_hasNonWhitespace hw
  · rw [if_neg hw]
    decide

/-- Normalized tool-result text is never the empty string. -/
theorem toolResultTextOf_ne_empty (r : Option (List MCPContent)) :
    toolResultTextOf r ≠ "" := by
  unfold toolResultTextOf
  exact guarded_text_ne_empty _

/-- A failed model call ends the round immediately: nothing of the round is
appended and the history at the failed call is returned unchanged. -/
theorem complexLoop_model_error (o : Oracles) (fr : String) (h : List Message) (fuel : Nat)
    (he : o.model (cleanConversationHistory h) = .error ()) :
    complexLoop o fr h (fuel + 1) = (.modelError, h) := by
  simp [complexLoop, he]

/-- One round with tool calls: the loop appends the assistant turn and one
user turn holding all tool results in request order, then continues with
the threaded free text. -/
theorem complexLoop_tool_step (o : Oracles) (content : List ContentBlock) (fr : String)
    (h : List Message) (fuel : Nat)
    (hm : o.model (cleanConversationHistory h) = .ok content)
    (ht : content.any ContentBlock.isToolUse = true) :
    complexLoop o fr h (fuel + 1) =
      complexLoop o (lastTextOr fr content)
        ((h ++ [⟨"assistant", .blocks content⟩]) ++
          [⟨"user", .blocks ((toolUsesOf content).map (fun u => processTool o u.1 u.2.1 u.2.2))⟩])
        fuel := by
  simp [complexLoop, hm, processRoundContent_hasTool, processRoundContent_fst,
    processRoundContent_results, ht]

/-- One round without tool calls: the loop converges, appending only the
assistant turn and returning the threaded free text. -/
theorem complexLoop_conv_step (o : Oracles) (content : List ContentBlock) (fr : String)
    (h : List Message) (fuel : Nat)
    (hm : o.model (cleanConversationHistory h) = .ok content)
    (ht : content.any ContentBlock.isToolUse = false) :
    complexLoop o fr h (fuel + 1) =
      (.converged (lastTextOr fr content), h ++ [⟨"assistant", .blocks content⟩]) := by
  simp [complexLoop, hm, processRoundContent_hasTool, processRoundContent_fst, ht]

/-- The tool-result turn built from a response with at least one tool call
is a well-formed tool-result turn. -/
theorem toolResultsTurn_ok (o : Oracles) (content : List ContentBlock)
    (hany : content.any ContentBlock.isToolUse = true) :
    isToolResultTurn
      ⟨"user", .blocks ((toolUsesOf content).map (fun u => processTool o u.1 u.2.1 u.2.2))⟩
      = true := by
  have hne : toolUsesOf content ≠ [] := toolUsesOf_ne_nil content hany
  simp [isToolResultTurn, List.all_eq_true, List.isEmpty_iff, List.map_eq_nil_iff, hne]
  intro x x1 x2 x3 _ hpt
  obtain ⟨txt, hptr⟩ := processTool_eq_toolResult o x1 x2 x3
  rw [← hpt, hptr]
  rfl

/-- Whenever the loop converges, everything appended after the starting
history is a run of assistant/tool-result pairs ending in an assistant
turn. -/
theorem complexLoop_converged_shape (o : Oracles) :
    ∀ (fuel : Nat) (fr : String) (h : List Message) (a : String) (h₂ : List Message),
      complexLoop o fr h fuel = (.converged a, h₂) →
      ∃ tail, h₂ = h ++ tail ∧ altRoundsShape tail = true := by
  intro fuel
  induction fuel with
  | zero =>
    intro fr h a h₂ heq
    simp [complexLoop] at heq
  | succ n ih =>
    intro fr h a h₂ heq
    cases hm : o.model (cleanConversationHistory h) with
    | error e =>
      cases e
      rw [complexLoop_model_error o fr h n hm] at heq
      simp at heq
    | ok content =>
      cases hany : content.any ContentBlock.isToolUse with
      | true =>
        rw [complexLoop_tool_step o content fr h n hm hany] at heq
        obtain ⟨tail, htl, hshape⟩ := ih _ _ _ _ heq
        refine ⟨⟨"assistant", .blocks content⟩ ::
          ⟨"user", .blocks ((toolUsesOf content).map (fun u => processTool o u.1 u.2.1 u.2.2))⟩
          :: tail, ?_, ?_⟩
        · rw [htl]
          simp
        · simp [altRoundsShape, hshape, toolResultsTurn_ok o content hany]
      | false =>
        rw [complexLoop_conv_step o content fr h n hm hany] at heq
        obtain ⟨ha, hh⟩ := Prod.mk.injEq .. ▸ heq
        refine ⟨[⟨"assistant", .blocks content⟩], ?_, ?_⟩
        · exact hh.symm ▸ rfl
        · simp [altRoundsShape]

/-- When the model always answers with at least one tool call, the loop
spends all its fuel: it ends exhausted and the transcript gains exactly two
turns per round. -/
theorem complexLoop_allTools (o : Oracles)
    (hok : ∀ msgs, ∃ content, o.model msgs = .ok content ∧
      content.any ContentBlock.isToolUse = true) :
    ∀ (fuel : Nat) (fr : String) (h : List Message),
      ∃ a h', complexLoop o fr h fuel = (.exhausted a, h') ∧
        h'.length = h.length + 2 * fuel := by
  intro fuel
  induction fuel with
  | zero =>
    intro fr h
    exact ⟨fr, h, rfl, by omega⟩
  | succ n ih =>
    intro fr h
    obtain ⟨content, hm, ht⟩ := hok (cleanConversationHistory h)
    obtain ⟨a, h', heq, hlen⟩ := ih (lastTextOr fr content)
      ((h ++ [⟨"assistant", .blocks content⟩]) ++
        [⟨"user", .blocks ((toolUsesOf content).map (fun u => processTool o u.1 u.2.1 u.2.2))⟩])
    refine ⟨a, h', ?_, ?_⟩
    · rw [complexLoop_tool_step o content fr h n hm ht]
      exact heq
    · rw [hlen]
      simp
      omega

/-- processComplexQuery is the loop outcome with the apology substituted
for a model failure, and the loop-final history. -/
theorem processComplexQuery_outcome (o : Oracles) (u : String) (n : Nat) (h : List Message) :
    processComplexQuery o u n h =
      (outcomeAnswer (complexLoop o "" (h ++ [userTurn u]) n).1,
       (complexLoop o "" (h ++ [userTurn u]) n).2) := by
  show (match complexLoop o "" (h ++ [userTurn u]) n with
    | (.converged a, h') => (a, h')
    | (.exhausted a, h') => (a, h')
    | (.modelError, h') => (complexErrorMessage, h')) = _
  rcases hL : complexLoop o "" (h ++ [userTurn u]) n with ⟨out, h'⟩
  cases out <;> rfl

/-- The error-text encoding of a failed tool call is never empty. -/
theorem errText_ne_empty (e : String) : ("Error executing tool: " ++ e) ≠ "" := by
  intro hemp
  have h2 := congrArg String.length hemp
  rw [String.length_append] at h2
  have h3 : ("Error executing tool: ").length = 22 := rfl
  have h4 : ("" : String).length = 0 := rfl
  omega

/-- C1 counterexample: when the first model response holds two text
segments and no tool call, run returns only the second segment, not the
concatenation of both — the round text is last-wins, refuting the claim. -/
theorem claim_C1_counterexample :
    (processComplexQuery twoTextOracle "hi" 3 []).1 = "world" ∧
    ("world" : String) ≠ "Hello " ++ "world" := by
  decide

/-- C1 (amended): the free text recorded for a round of processComplexQuery
is the last text segment of the response (last-wins), not the
concatenation; in particular, when the first response has no tool calls,
run converges after one round and returns the last text segment of that
response (or the empty string if it has none), appending only the user and
assistant turns. -/
theorem claim_C1 :
    (∀ (o : Oracles) (blocks : List ContentBlock) (d : String),
      (processRoundContent o blocks d).1 = lastTextOr d blocks) ∧
    (∀ (o : Oracles) (u : String) (n : Nat) (h : List Message) (content : List ContentBlock),
      o.model (cleanConversationHistory (h ++ [userTurn u])) = .ok content →
      content.any ContentBlock.isToolUse = false →
      processComplexQuery o u (n + 1) h =
        (lastTextOr "" content, h ++ [userTurn u, ⟨"assistant", .blocks content⟩])) := by
  constructor
  · exact processRoundContent_fst
  · intro o u n h content hm ht
    rw [processComplexQuery_outcome,
      complexLoop_conv_step o content "" (h ++ [userTurn u]) n hm ht]
    simp [outcomeAnswer]

/-- C1 witness: the amended statement applied to a concrete oracle whose
first response is two text segments without tool calls. -/
theorem claim_C1_witness :
    processComplexQuery twoTextOracle "hi" 1 [] =
      (lastTextOr "" [.text "Hello ", .text "world"],
       [userTurn "hi", ⟨"assistant", .blocks [.text "Hello ", .text "world"]⟩]) := by
  have h := claim_C1.2 twoTextOracle "hi" 0 [] [.text "Hello ", .text "world"] rfl (by decide)
  simpa using h

/-- C2 counterexample: with maxRounds = 1 and a model that always requests
a tool, run returns the empty string — no fallback is synthesized, refuting
the claim that the caller never receives an empty answer after tool use. -/
theorem claim_C2_counterexample :
    (processComplexQuery toolOnlyOracle "q" 1 []).1 = "" := by
  decide

/-- C2 (amended): when every model response contains at least one tool
call, the loop stops after exactly maxRounds rounds — the transcript gains
the user turn plus exactly two turns per round — and run returns the most
recently recorded free text unchanged; no fallback is synthesized, so that
text may be the empty string. -/
theorem claim_C2 (o : Oracles)
    (hok : ∀ msgs, ∃ content, o.model msgs = .ok content ∧
      content.any ContentBlock.isToolUse = true) :
    ∀ (u : String) (n : Nat) (h : List Message),
      (complexLoop o "" (h ++ [userTurn u]) n).1 =
        .exhausted (outcomeAnswer (complexLoop o "" (h ++ [userTurn u]) n).1) ∧
      (complexLoop o "" (h ++ [userTurn u]) n).2.length = h.length + 1 + 2 * n ∧
      processComplexQuery o u n h =
        (outcomeAnswer (complexLoop o "" (h ++ [userTurn u]) n).1,
         (complexLoop o "" (h ++ [userTurn u]) n).2) := by
  intro u n h
  obtain ⟨a, h', heq, hlen⟩ := complexLoop_allTools o hok n "" (h ++ [userTurn u])
  refine ⟨?_, ?_, processComplexQuery_outcome o u n h⟩
  · rw [heq]
    rfl
  · rw [heq, hlen]
    simp
    try omega

/-- C2 witness: the amended statement applied to the always-tool oracle at
maxRounds = 1. -/
theorem claim_C2_witness :
    (complexLoop toolOnlyOracle "" ([] ++ [userTurn "q"]) 1).1 =
      .exhausted (outcomeAnswer (complexLoop toolOnlyOracle "" ([] ++ [userTurn "q"]) 1).1) ∧
    (complexLoop toolOnlyOracle "" ([] ++ [userTurn "q"]) 1).2.length =
      ([] : List Message).length + 1 + 2 * 1 ∧
    processComplexQuery toolOnlyOracle "q" 1 [] =
      (outcomeAnswer (complexLoop toolOnlyOracle "" ([] ++ [userTurn "q"]) 1).1,
       (complexLoop toolOnlyOracle "" ([] ++ [userTurn "q"]) 1).2) :=
  claim_C2 toolOnlyOracle
    (fun _ => ⟨[.toolUse "1" "t" "in"], rfl, by decide⟩) "q" 1 []

/-- C3 counterexample: when the first model call fails, the transcript is
not rolled back to its state before the run — the UserTurn appended for the
invocation remains, refuting the claim that no partial append including the
initial UserTurn survives. -/
theorem claim_C3_counterexample :
    (processComplexQuery errOracle "hi" 3 []).2 = [userTurn "hi"] ∧
    ([userTurn "hi"] : List Message) ≠ [] := by
  decide

/-- C3 (amended): a failed model call terminates the run with the fixed
user-visible error message, and the transcript is left exactly in the state
it had just before the failed call: no turn of the failing round is
appended, but the initial UserTurn of the invocation (and any turns of
completed rounds) remains. -/
theorem claim_C3 :
    (∀ (o : Oracles) (fr : String) (h : List Message) (fuel : Nat),
      o.model (cleanConversationHistory h) = .error () →
      complexLoop o fr h (fuel + 1) = (.modelError, h)) ∧
    (∀ (o : Oracles) (u : String) (n : Nat) (h : List Message),
      o.model (cleanConversationHistory (h ++ [userTurn u])) = .error () →
      processComplexQuery o u (n + 1) h = (complexErrorMessage, h ++ [userTurn u])) := by
  constructor
  · exact complexLoop_model_error
  · intro o u n h he
    rw [processComplexQuery_outcome, complexLoop_model_error o "" (h ++ [userTurn u]) n he]
    rfl

/-- C3 witness: the amended statement applied to the failing model oracle. -/
theorem claim_C3_witness :
    complexLoop errOracle "x" [] 3 = (.modelError, []) ∧
    processComplexQuery errOracle "hi" 3 [] = (complexErrorMessage, [] ++ [userTurn "hi"]) :=
  ⟨claim_C3.1 errOracle "x" [] 2 rfl, claim_C3.2 errOracle "hi" 2 [] rfl⟩

/-- C4 counterexample: a run that stops by exhausting maxRounds leaves the
transcript ending in a tool-result turn, not an assistant turn, refuting
the claimed shape for every completed run. -/
theorem claim_C4_counterexample :
    (processComplexQuery toolOnlyOracle "q" 1 []).2 =
      [userTurn "q", ⟨"assistant", .blocks [.toolUse "1" "t" "in"]⟩,
       ⟨"user", .blocks [.toolResult "1" "ok"]⟩] ∧
    altRoundsShape [⟨"assistant", .blocks [.toolUse "1" "t" "in"]⟩,
       ⟨"user", .blocks [.toolResult "1" "ok"]⟩] = false := by
  decide

/-- C4 (amended): after a run that converges — the final model response has
no tool calls — getHistory returns the prior history extended by the new
UserTurn followed by alternating assistant-turn / tool-result-turn pairs
ending in an assistant turn; reading the history is side-effect free and
two reads without intervening mutation yield identical sequences.  A run
that stops by exhausting maxRounds instead ends in a tool-result turn. -/
theorem claim_C4 :
    (∀ (o : Oracles) (u : String) (maxR : Nat) (h : List Message) (a : String)
        (h₂ : List Message),
      complexLoop o "" (h ++ [userTurn u]) maxR = (.converged a, h₂) →
      processComplexQuery o u maxR h = (a, h₂) ∧
      ∃ tail, h₂ = h ++ userTurn u :: tail ∧ altRoundsShape tail = true) ∧
    (∀ s : LLMState, getHistoryOp s = (s.conversationHistory, s)) ∧
    (∀ s : LLMState, (getHistoryOp ((getHistoryOp s).2)).1 = (getHistoryOp s).1) := by
  refine ⟨?_, fun s => rfl, fun s => rfl⟩
  intro o u maxR h a h₂ hL
  constructor
  · rw [processComplexQuery_outcome, hL]
    rfl
  · obtain ⟨tail, htl, hsh⟩ := complexLoop_converged_shape o maxR "" (h ++ [userTurn u]) a h₂ hL
    refine ⟨tail, ?_, hsh⟩
    rw [htl]
    simp

/-- C4 witness: the amended statement applied to a text-only oracle, whose
run converges in one round. -/
theorem claim_C4_witness :
    processComplexQuery textOracle "q" 3 [] =
      ("Done.", [userTurn "q", ⟨"assistant", .blocks [.text "Done."]⟩]) ∧
    altRoundsShape [⟨"assistant", MessageContent.blocks [ContentBlock.text "Done."]⟩] = true := by
  have h := claim_C4.1 textOracle "q" 3 []
    "Done." [userTurn "q", ⟨"assistant", .blocks [.text "Done."]⟩] (by decide)
  exact ⟨h.1, by decide⟩

/-- C5: within every round, each tool_use request of the model response is
dispatched in request order and yields exactly one tool_result (a
tool-level failure is encoded as error text by the dispatch, which is a
total function, so it never aborts the round), and the round appends all
results in a single user turn, in the same order as the requests. -/
theorem claim_C5 :
    (∀ (o : Oracles) (blocks : List ContentBlock) (d : String),
      (processRoundContent o blocks d).2.2 =
        (toolUsesOf blocks).map (fun u => processTool o u.1 u.2.1 u.2.2)) ∧
    (∀ (o : Oracles) (id name input : String),
      ∃ txt, processTool o id name input = .toolResult id txt) ∧
    (∀ (o : Oracles) (content : List ContentBlock) (fr : String) (h : List Message)
        (fuel : Nat),
      o.model (cleanConversationHistory h) = .ok content →
      content.any ContentBlock.isToolUse = true →
      complexLoop o fr h (fuel + 1) =
        complexLoop o (lastTextOr fr content)
          ((h ++ [⟨"assistant", .blocks content⟩]) ++
            [⟨"user", .blocks ((toolUsesOf content).map
              (fun u => processTool o u.1 u.2.1 u.2.2))⟩])
          fuel) :=
  ⟨processRoundContent_results, processTool_eq_toolResult,
    fun o content fr h fuel hm ht => complexLoop_tool_step o content fr h fuel hm ht⟩

/-- C5 witness: the one-turn append step applied to the always-tool oracle
on a concrete round. -/
theorem claim_C5_witness :
    complexLoop toolOnlyOracle "" [userTurn "q"] 1 =
      complexLoop toolOnlyOracle (lastTextOr "" [.toolUse "1" "t" "in"])
        (([userTurn "q"] ++ [⟨"assistant", .blocks [.toolUse "1" "t" "in"]⟩]) ++
          [⟨"user", .blocks ((toolUsesOf [.toolUse "1" "t" "in"]).map
            (fun u => processTool toolOnlyOracle u.1 u.2.1 u.2.2))⟩])
        0 :=
  claim_C5.2.2 toolOnlyOracle [.toolUse "1" "t" "in"] "" [userTurn "q"] 0 rfl (by decide)

/-- C6: the text of every tool_result appended by the loop is non-empty:
the dispatch always yields a tool_result whose text is not the empty
string, and when the underlying tool produced no non-whitespace text
content the fixed placeholder "No result" is substituted. -/
theorem claim_C6 :
    (∀ (o : Oracles) (id name input : String),
      ∃ txt, processTool o id name input = .toolResult id txt ∧ txt ≠ "") ∧
    toolResultTextOf none = "No result" ∧
    (∀ cs : List MCPContent,
      ((cs.filter (fun c => c.type = "text")).map MCPContent.text).filter hasNonWhitespace
        = [] →
      toolResultTextOf (some cs) = "No result") := by
  refine ⟨?_, by decide, ?_⟩
  · intro o id name input
    unfold processTool
    cases hc : o.callTool name input with
    | ok r => exact ⟨toolResultTextOf r, rfl, toolResultTextOf_ne_empty r⟩
    | error e => exact ⟨"Error executing tool: " ++ e, rfl, errText_ne_empty e⟩
  · intro cs hf
    simp only [toolResultTextOf]
    rw [hf]
    decide

/-- C6 witness: a tool result with no text-kind content is normalized to
the placeholder. -/
theorem claim_C6_witness :
    toolResultTextOf (some [⟨"image", "x"⟩]) = "No result" :=
  claim_C6.2.2 [⟨"image", "x"⟩] (by decide)

/-- C7: the prompt builder is a pure, deterministic function of the
tool-spec sequence: it leaves the session state unchanged, two sessions
with identical capability directories render byte-identical prompts, and
the rendered text enumerates the per-tool blocks (name, description,
parameter list) in directory iteration order between the fixed header and
footer. -/
theorem claim_C7 :
    (∀ s₁ s₂ : LLMState, s₁.availableTools = s₂.availableTools →
      (buildSystemPromptOp s₁).1 = (buildSystemPromptOp s₂).1) ∧
    (∀ s : LLMState, (buildSystemPromptOp s).2 = s) ∧
    (∀ ts : List Tool, buildSystemPrompt ts =
      promptHeader ++ String.intercalate "\n" (ts.map toolDescription) ++ promptFooter) := by
  refine ⟨?_, fun s => rfl, fun ts => rfl⟩
  intro s₁ s₂ hts
  show buildSystemPrompt s₁.availableTools = buildSystemPrompt s₂.availableTools
  rw [hts]

/-- C7 witness: two sessions holding the same directory but different
transcripts render the same prompt. -/
theorem claim_C7_witness :
    (buildSystemPromptOp ⟨[⟨"say_hello", "greets someone",
        some [⟨"name", none, some "string"⟩]⟩], [userTurn "a"]⟩).1 =
    (buildSystemPromptOp ⟨[⟨"say_hello", "greets someone",
        some [⟨"name", none, some "string"⟩]⟩], [userTurn "b"]⟩).1 :=
  claim_C7.1 _ _ rfl

/-- C8: sanitization never mutates the raw transcript: computing the
sanitized snapshot leaves the session state — and hence getHistory —
unchanged; concretely, a whitespace-only assistant message is dropped from
the snapshot yet remains in the raw transcript. -/
theorem claim_C8 :
    (∀ s : LLMState, (cleanConversationHistoryOp s).2 = s) ∧
    (∀ s : LLMState, getHistory (cleanConversationHistoryOp s).2 = getHistory s) ∧
    cleanConversationHistoryOp ⟨[], [⟨"assistant", .str ""⟩]⟩ =
      ([], ⟨[], [⟨"assistant", .str ""⟩]⟩) := by
  exact ⟨fun s => rfl, fun s => rfl, by decide⟩

/-- C9: processComplexQuery is total over its error cases: for every oracle
behavior it returns the pair given by the loop outcome — so it always
returns a string — a model-call failure yields exactly the fixed apology
string, and a tool-host failure is absorbed into a tool_result block rather
than escaping. -/
theorem claim_C9 :
    (∀ (o : Oracles) (u : String) (n : Nat) (h : List Message),
      processComplexQuery o u n h =
        (outcomeAnswer (complexLoop o "" (h ++ [userTurn u]) n).1,
         (complexLoop o "" (h ++ [userTurn u]) n).2)) ∧
    (∀ (o : Oracles) (u : String) (n : Nat) (h : List Message),
      (complexLoop o "" (h ++ [userTurn u]) n).1 = .modelError →
      (processComplexQuery o u n h).1 = complexErrorMessage) ∧
    (∀ (o : Oracles) (id name input : String),
      ∃ txt, processTool o id name input = .toolResult id txt) := by
  refine ⟨processComplexQuery_outcome, ?_, processTool_eq_toolResult⟩
  intro o u n h hme
  rw [processComplexQuery_outcome, hme]
  rfl

/-- C9 witness: the apology clause applied to the failing model oracle. -/
theorem claim_C9_witness :
    (processComplexQuery errOracle "hi" 3 []).1 = complexErrorMessage :=
  claim_C9.2.1 errOracle "hi" 3 [] (by decide)

/-- C10: the sanitized snapshot is a subsequence of the raw transcript
(messages are only removed whole, never reordered, merged or fabricated),
every surviving message is valid, and of a run of consecutive text-only
assistant messages only the first is kept — the text of the later ones is
discarded, not merged. -/
theorem claim_C10 :
    (∀ h : List Message, (cleanConversationHistory h).Sublist h) ∧
    (∀ (h : List Message) (m : Message),
      m ∈ cleanConversationHistory h → validateMessage m = true) ∧
    cleanConversationHistory [asstText "a", asstText "b", asstText "c"] = [asstText "a"] := by
  exact ⟨cleanConversationHistory_sublist, fun h m hm => mem_clean_valid hm, by decide⟩

/-- C10 witness: the validity clause applied at a concrete transcript and
member. -/
theorem claim_C10_witness :
    validateMessage (asstText "a") = true :=
  claim_C10.2.1 [asstText "a"] (asstText "a") (by decide)

end MCP
